import Mathlib

/-!
Verification of the pdo-tools repository: a shallow embedding of the PDO
binary parser (pkg/pdo) and of the export-side geometry and page-layout
helpers (pkg/export), together with theorems settling the frozen claims.

Modelling conventions:
* Go byte streams are `List Nat` (each entry a byte value).
* Go machine integers (`int32`, `uint32`, ...) are `Int`/`Nat` with explicit
  truncation (`% 2 ^ 32` etc.) at the points where Go converts.
* Go `string` values are modelled as `List Nat` (a Go string is a byte
  sequence); the external text codecs (Shift-JIS from
  golang.org/x/text, `unicode/utf16`) are parameters of the embedding,
  instantiated at witnesses with an ASCII fragment that agrees with the
  real libraries on the inputs used.
* Go `float64` values read by the parser are kept as raw 64-bit
  little-endian patterns (`Nat`); the export-side arithmetic
  (`getPageDims`, page-grid floors) is modelled over `ℚ` (exact reals),
  since the claims about it are algebraic identities on the values.
* Fallible Go code returns `Except String`; a Go runtime panic is kept
  distinct from a returned `error` wherever a claim depends on it.
-/

namespace PdoTools

/-! ## Data model (pkg/pdo/types.go), parametric in the float representation -/

structure Rect (F : Type) where
  Left : F
  Top : F
  Width : F
  Height : F
  deriving Repr, DecidableEq

structure Face2DVertex (F : Type) where
  IDVertex : Int
  X : F
  Y : F
  U : F
  V : F
  Flap : Nat
  FlapHeight : F
  FlapAAngle : F
  FlapBAngle : F
  FlapFoldInfo : List Nat
  deriving Repr, DecidableEq

structure Face (F : Type) where
  MaterialIndex : Int
  PartIndex : Int
  Nx : F
  Ny : F
  Nz : F
  Coord : F
  Vertices : List (Face2DVertex F)
  deriving Repr, DecidableEq

structure Edge where
  Face1Index : Int
  Face2Index : Int
  Vertex1Index : Int
  Vertex2Index : Int
  ConnectsFaces : Int
  NoConnectedFace : Int
  deriving Repr, DecidableEq

structure Vertex3D (F : Type) where
  X : F
  Y : F
  Z : F
  deriving Repr, DecidableEq

structure Object (F : Type) where
  Name : List Nat
  Visible : Nat
  Vertices : List (Vertex3D F)
  Faces : List (Face F)
  Edges : List Edge
  deriving Repr, DecidableEq

structure Texture where
  Width : Int
  Height : Int
  DataSize : Nat
  DataHeader : Nat
  DataHash : Nat
  TextureID : Int
  RawData : List Nat
  deriving Repr, DecidableEq

structure Material (F : Type) where
  Name : List Nat
  Color3D : List Nat
  Color2DRGBA : List F
  HasTexture : Bool
  Texture : Texture
  deriving Repr, DecidableEq

structure Line where
  Hidden : Bool
  /-- The Go field is named `Type`; renamed here because `Type` is a Lean keyword. -/
  LineType : Int
  FaceIndex : Int
  VertexIndex : Int
  IsConnectingFaces : Bool
  Face2Index : Int
  Vertex2Index : Int
  deriving Repr, DecidableEq

structure Part (F : Type) where
  ObjectIndex : Int
  BoundingBox : Rect F
  Name : List Nat
  Lines : List Line
  deriving Repr, DecidableEq

structure TextBlock (F : Type) where
  BoundingBox : Rect F
  LineSpacing : F
  Color : Int
  FontSize : Int
  FontName : List Nat
  Lines : List (List Nat)
  deriving Repr, DecidableEq

structure Image (F : Type) where
  BoundingBox : Rect F
  Texture : Texture
  deriving Repr, DecidableEq

structure Header where
  Version : Int
  MultiByteChars : Int
  DesignerID : List Nat
  StringShift : Int
  TexLock : Int
  Locale : List Nat
  Codepage : List Nat
  Key : List Nat
  V6Lock : Int
  ShowStartupNotes : Nat
  PasswordFlag : Nat
  AssembledHeight : Nat
  OriginOffset : List Nat
  deriving Repr, DecidableEq

structure Settings (F : Type) where
  ShowFlaps : Nat
  ShowEdgeID : Nat
  EdgeIDPlacement : Nat
  FaceMaterial : Nat
  HideAlmostFlatFoldLines : Nat
  FoldLinesHidingAngle : Int
  DrawWhiteLineUnderDotLine : Nat
  MountainFoldLineStyle : Int
  ValleyFoldLineStyle : Int
  CutLineStyle : Int
  EdgeIDFontSize : Int
  PageType : Int
  CustomWidth : F
  CustomHeight : F
  Orientation : Int
  MarginTop : Int
  MarginSide : Int
  MountainFoldLinePattern : List Nat
  ValleyFoldLinePattern : List Nat
  AddOutlinePadding : Nat
  ScaleFactor : F
  AuthorName : List Nat
  Comment : List Nat
  deriving Repr, DecidableEq

structure Unfold (F : Type) where
  Scale : F
  BoundingBox : Rect F
  deriving Repr, DecidableEq

structure PDO (F : Type) where
  Header : Header
  Objects : List (Object F)
  Materials : List (Material F)
  TextBlocks : List (TextBlock F)
  Parts : List (Part F)
  Images : List (Image F)
  Settings : Settings F
  Unfold : Unfold F
  deriving Repr, DecidableEq

/-! ## Net-geometry resolver (pkg/export/util.go)

The export helpers run on the finished model with real float arithmetic;
they are embedded over `ℚ`.  A Go runtime panic (out-of-range slice
index) is modelled as `Except.error`; the Go `nil` pointer result is
`Option.none`. -/

/-- The linear scan `for i := range face.Vertices` of `get2DVertex`:
first entry whose `IDVertex` equals the target, or `nil`. -/
def findVertex (target : Int) : List (Face2DVertex ℚ) → Option (Face2DVertex ℚ)
  | [] => none
  | v :: rest => if v.IDVertex = target then some v else findVertex target rest

/-- The same scan returning the position of the first match, as used by
`getNext2DVertex` to step to the cyclic successor. -/
def findVertexIdx (target : Int) : List (Face2DVertex ℚ) → Option Nat
  | [] => none
  | v :: rest =>
    if v.IDVertex = target then some 0 else Option.map Nat.succ (findVertexIdx target rest)

/-- Embedding of `get2DVertex` (src/pkg/export/util.go lines 10-22).
`if int(faceIdx) >= len(obj.Faces) { return nil }` guards only the upper
bound; the subsequent `obj.Faces[faceIdx]` panics in Go when `faceIdx`
is negative, modelled as `Except.error`. -/
def get2DVertex (obj : Object ℚ) (faceIdx vertIdx : Int) :
    Except String (Option (Face2DVertex ℚ)) :=
  if (obj.Faces.length : Int) ≤ faceIdx then Except.ok none
  else if faceIdx < 0 then Except.error "panic: index out of range"
  else
    match obj.Faces.get? faceIdx.toNat with
    | some face => Except.ok (findVertex vertIdx face.Vertices)
    | none => Except.ok none

/-- Embedding of `getNext2DVertex` (src/pkg/export/util.go lines 26-40):
find the loop entry whose `IDVertex` matches, then return the entry at
`(i + 1) % len(face.Vertices)`. -/
def getNext2DVertex (obj : Object ℚ) (faceIdx vertIdx : Int) :
    Except String (Option (Face2DVertex ℚ)) :=
  if (obj.Faces.length : Int) ≤ faceIdx then Except.ok none
  else if faceIdx < 0 then Except.error "panic: index out of range"
  else
    match obj.Faces.get? faceIdx.toNat with
    | some face =>
      match findVertexIdx vertIdx face.Vertices with
      | some i =>
        match face.Vertices.get? ((i + 1) % face.Vertices.length) with
        | some v => Except.ok (some v)
        | none => Except.ok none
      | none => Except.ok none
    | none => Except.ok none

/-! ## Page-layout engine (pkg/export/util.go, obj.go) -/

structure PageDims where
  Width : ℚ
  Height : ℚ
  MarginLeft : ℚ
  MarginTop : ℚ
  ClippedWidth : ℚ
  ClippedHeight : ℚ
  deriving Repr, DecidableEq

/-- Embedding of `getPageDims` (src/pkg/export/util.go lines 51-93):
A4 or custom base size, orientation swap of both the dimensions and the
margins, and the clipped (printable) area. -/
def getPageDims (p : PDO ℚ) : PageDims :=
  let w : ℚ := 210
  let h : ℚ := 297
  let wh : ℚ × ℚ :=
    if p.Settings.PageType = 0 then (210, 297)
    else if p.Settings.PageType = 11 then
      ((if p.Settings.CustomWidth > 0 then p.Settings.CustomWidth else w),
       (if p.Settings.CustomHeight > 0 then p.Settings.CustomHeight else h))
    else (w, h)
  let mt : ℚ := (p.Settings.MarginTop : ℚ)
  let ms : ℚ := (p.Settings.MarginSide : ℚ)
  let whms : ℚ × ℚ × ℚ × ℚ :=
    if p.Settings.Orientation = 1 then (wh.2, wh.1, ms, mt) else (wh.1, wh.2, mt, ms)
  { Width := whms.1
    Height := whms.2.1
    MarginLeft := whms.2.2.2
    MarginTop := whms.2.2.1
    ClippedWidth := whms.1 - 2 * whms.2.2.2
    ClippedHeight := whms.2.1 - 2 * whms.2.2.1 }

/-- Embedding of `calculatePageGrid` (src/pkg/export/util.go lines 95-123):
the maximal page column and row over all parts, starting from `(0, 0)`. -/
def calculatePageGrid (p : PDO ℚ) (dims : PageDims) : Int × Int :=
  p.Parts.foldl
    (fun acc part =>
      let px := Int.floor (part.BoundingBox.Left / dims.ClippedWidth)
      let py := Int.floor (part.BoundingBox.Top / dims.ClippedHeight)
      ((if px > acc.1 then px else acc.1), (if py > acc.2 then py else acc.2)))
    (0, 0)

/-- Embedding of `getPartsOnPage` (src/pkg/export/obj.go lines 303-317):
the parts whose floor page coordinates equal the requested cell. -/
def getPartsOnPage (p : PDO ℚ) (px py : Int) (dims : PageDims) : List (Part ℚ) :=
  p.Parts.filter
    (fun part =>
      let ppx := Int.floor (part.BoundingBox.Left / dims.ClippedWidth)
      let ppy := Int.floor (part.BoundingBox.Top / dims.ClippedHeight)
      ppx = px ∧ ppy = py)

/-! ## Texture payload codec (pkg/pdo/texture.go)

`GetImage` inflates `Texture.RawData` through `compress/flate` (an
external library) and reads exactly `Width * Height * 3` bytes from the
inflated stream with `io.ReadFull`.  The embedding takes the inflated
stream as the parameter `inflated : List Nat`: the bytes the flate
reader can produce before reaching either clean end-of-stream or a
corruption error.  `io.ReadFull` succeeds iff at least the requested
number of bytes is available, so whether the stream beyond `inflated`
ended cleanly or was malformed is unobservable to `GetImage`.
A `TexResult.crash` models the Go runtime panic of
`make([]byte, expectedSize)` when `expectedSize` is negative. -/

inductive TexResult where
  | ok (buf : List Nat)
  | err (msg : String)
  | crash (msg : String)
  deriving Repr, DecidableEq

/-- Embedding of `Texture.GetImage` (src/pkg/pdo/texture.go lines 19-45),
returning the raw interleaved RGB buffer `out` that the Go code then
copies into an `image.RGBA`. -/
def GetImage (t : Texture) (inflated : List Nat) : TexResult :=
  if t.RawData.length = 0 then TexResult.err "no texture data"
  else
    let expectedSize : Int := t.Width * t.Height * 3
    if expectedSize < 0 then TexResult.crash "makeslice: len out of range"
    else if expectedSize.toNat ≤ inflated.length then
      TexResult.ok (inflated.take expectedSize.toNat)
    else TexResult.err "deflate read failed: unexpected EOF"

/-! ## Byte-stream decoder state (pkg/pdo/reader.go)

The parser consumes one byte list, counting failed primitive reads.  Each
Go `binary.Read` call is one primitive read here; on a short read
`io.ReadFull` consumes the partial prefix and reports EOF.  `failed`
counts the primitive reads that failed during the run: it is the
observable for the abort-on-first-failure policy (if every read failure
propagated immediately, at most one read per run could fail). -/

structure ParseState where
  input : List Nat
  failed : Nat
  shift : Nat
  multiByte : Bool
  deriving Repr, DecidableEq

def M (α : Type) : Type := ParseState → Except String α × ParseState

instance : Monad M where
  pure a := fun s => (Except.ok a, s)
  bind x f := fun s =>
    match x s with
    | (Except.ok a, s1) => f a s1
    | (Except.error e, s1) => (Except.error e, s1)

def M.fail {α : Type} (e : String) : M α := fun s => (Except.error e, s)

def M.getState : M ParseState := fun s => (Except.ok s, s)

def M.setMultiByte (b : Bool) : M Unit := fun s => (Except.ok (), { s with multiByte := b })

def M.setShift (n : Nat) : M Unit := fun s => (Except.ok (), { s with shift := n })

/-- One `binary.Read` of `n` bytes. -/
def readN (n : Nat) : M (List Nat) := fun s =>
  if n ≤ s.input.length then (Except.ok (s.input.take n), { s with input := s.input.drop n })
  else (Except.error "EOF", { s with input := [], failed := s.failed + 1 })

/-- A read whose error the Go code discards: `p.reader.ReadBytes(junk)` in
the V6 lock-skip loop of `ReadHeader` ignores the returned error and the
loop continues. -/
def skipRead (n : Nat) : M Unit := fun s =>
  match readN n s with
  | (_, s1) => (Except.ok (), s1)

/-- Error wrapping in the style of `fmt.Errorf("stage: %w", err)`. -/
def M.wrapErr {α : Type} (tag : String) (x : M α) : M α := fun s =>
  match x s with
  | (Except.ok a, s1) => (Except.ok a, s1)
  | (Except.error e, s1) => (Except.error (tag ++ e), s1)

/-- Little-endian byte combination. -/
def leNat : List Nat → Nat
  | [] => 0
  | b :: rest => b + 256 * leNat rest

/-- Two-complement reading of a 32-bit little-endian value. -/
def toInt32 (n : Nat) : Int :=
  if n % 2 ^ 32 < 2 ^ 31 then ((n % 2 ^ 32 : Nat) : Int) else ((n % 2 ^ 32 : Nat) : Int) - 2 ^ 32

/-- Two-complement reading of a 16-bit little-endian value. -/
def toInt16 (n : Nat) : Int :=
  if n % 2 ^ 16 < 2 ^ 15 then ((n % 2 ^ 16 : Nat) : Int) else ((n % 2 ^ 16 : Nat) : Int) - 2 ^ 16

/-- The 4 little-endian bytes of an `int32` value. -/
def int32Bytes (v : Int) : List Nat :=
  let n := (v % 2 ^ 32).toNat
  [n % 256, n / 256 % 256, n / 256 ^ 2 % 256, n / 256 ^ 3 % 256]

def readU8 : M Nat := do
  let bs ← readN 1
  pure (leNat bs)

def readU16 : M Nat := do
  let bs ← readN 2
  pure (leNat bs)

def readU32 : M Nat := do
  let bs ← readN 4
  pure (leNat bs)

def readInt32 : M Int := do
  let bs ← readN 4
  pure (toInt32 (leNat bs))

/-- A `float64` read, kept as the raw 64-bit pattern. -/
def readF64raw : M Nat := do
  let bs ← readN 8
  pure (leNat bs)

/-- A `TPdoRect`-style read: one `binary.Read` of 4 packed `float64`. -/
def readRect : M (Rect Nat) := do
  let bs ← readN 32
  pure { Left := leNat (bs.take 8), Top := leNat ((bs.drop 8).take 8),
         Width := leNat ((bs.drop 16).take 8), Height := leNat ((bs.drop 24).take 8) }

/-! ## String decoding (pkg/pdo/reader.go, ReadString)

The Shift-JIS decoder (golang.org/x/text/encoding/japanese) and the
UTF-16 decoder (`unicode/utf16` + Go string conversion) are external
libraries; the embedding takes them as parameters.  `sjisDec` returns
`none` where `transform.Bytes` returns an error (the code then falls
back to the raw shifted bytes); `utf16Dec` is total. -/

structure Codecs where
  sjisDec : List Nat → Option (List Nat)
  utf16Dec : List Nat → List Nat

/-- Byte subtraction `b - shift` in `uint8` arithmetic. -/
def bsub (b shift : Nat) : Nat := (b + (256 - shift % 256)) % 256

/-- Unit subtraction `w - uint16(shift)` in `uint16` arithmetic. -/
def wsub (w shift : Nat) : Nat := (w + (65536 - shift % 65536)) % 65536

/-- The single-byte collection loop of `ReadString`: subtract the shift
from each byte, stopping at the first shifted value of zero. -/
def collectBytes (shift : Nat) : List Nat → List Nat
  | [] => []
  | b :: rest =>
    let v := bsub b shift
    if v = 0 then [] else v :: collectBytes shift rest

/-- The multi-byte collection loop of `ReadString` over 16-bit units. -/
def collectUnits (shift : Nat) : List Nat → List Nat
  | [] => []
  | w :: rest =>
    let v := wsub w shift
    if v = 0 then [] else v :: collectUnits shift rest

/-- Grouping of a byte list into little-endian 16-bit units
(`binary.Read` into a `[]uint16`). -/
def pairU16 : List Nat → List Nat
  | b0 :: b1 :: rest => (b0 + 256 * b1) :: pairU16 rest
  | _ => []

/-- Embedding of `Reader.ReadString` (src/pkg/pdo/reader.go lines 56-124):
4-byte length prefix, then either `wrappedLen` single bytes decoded as
Shift-JIS after shift removal (raw shifted bytes on decoder error), or
`wrappedLen / 2` 16-bit units decoded as UTF-16 after shift removal; a
shifted value of zero terminates the string early. -/
def readString (codec : Codecs) (shift : Nat) : M (List Nat) := do
  let wrappedLen ← readInt32
  if wrappedLen = 0 then pure []
  else do
    let s ← M.getState
    if s.multiByte then
      let count := Int.tdiv wrappedLen 2
      if count ≤ 0 then pure []
      else do
        let bs ← readN (2 * count.toNat)
        pure (codec.utf16Dec (collectUnits shift (pairU16 bs)))
    else
      if wrappedLen ≤ 0 then pure []
      else do
        let bs ← readN wrappedLen.toNat
        let validBytes := collectBytes shift bs
        match codec.sjisDec validBytes with
        | some out => pure out
        | none => pure validBytes

/-- Embedding of `Reader.ReadShiftedString`. -/
def readShiftedString (codec : Codecs) : M (List Nat) := do
  let s ← M.getState
  readString codec s.shift

/-- An ASCII fragment of the external codecs, used to instantiate the
parameters at concrete inputs: both the Shift-JIS and the UTF-16 decoder
of the Go libraries act as the identity on values below 128. -/
def asciiCodec : Codecs where
  sjisDec := fun bs => if bs.all (fun b => b < 128) then some bs else none
  utf16Dec := fun ws => if ws.all (fun w => w < 128) then ws else []

/-! ## Structural parser (pkg/pdo/parser.go)

Each stage mirrors the corresponding Go function.  `make` with a
negative length is a Go runtime panic, modelled as an `Except.error`
whose message starts with `panic:`.  Go zero values fill fields the
source does not assign. -/

def fileMagic : List Nat := [118, 101, 114, 115, 105, 111, 110, 32, 51, 10]

/-- The V6 lock-skip loop (src/pkg/pdo/parser.go lines 148-153): reads
`V6Lock` 8-byte blocks, discarding the error of each read. -/
def junkLoop : Nat → M Unit
  | 0 => pure ()
  | n + 1 => do
    skipRead 8
    junkLoop n

/-- The `version > PDO_V4` block of `ReadHeader`: designer-ID string
(read with shift 0) and the shift-byte field, whose low byte becomes
the stream shift for all later strings. -/
def readDesignerBlock (codec : Codecs) (version : Int) : M (List Nat × Int) :=
  if version > 4 then do
    let d ← readString codec 0
    let sv ← readInt32
    M.setShift (sv % 256).toNat
    pure (d, sv)
  else pure ([], 0)

/-- The two flag bytes read before the key string at version 6. -/
def readV6PreKeyFlags (version : Int) : M (Nat × Nat) :=
  if version = 6 then do
    let a ← readU8
    let b ← readU8
    pure (a, b)
  else pure (0, 0)

/-- The block after the key string: at version 6 the lock count and the
skippable 8-byte blocks (whose read errors the Go code discards); at
versions above 4 the two flag bytes instead. -/
def readPostKeyBlock (version : Int) : M (Int × Nat × Nat) :=
  if version = 6 then do
    let v6Lock ← readInt32
    if v6Lock > 0 then
      junkLoop v6Lock.toNat
    pure (v6Lock, 0, 0)
  else if version > 4 then do
    let a ← readU8
    let b ← readU8
    pure (0, a, b)
  else pure (0, 0, 0)

/-- Embedding of `Parser.ReadHeader` (src/pkg/pdo/parser.go lines
63-162).  The Go function assigns `ShowStartupNotes`/`PasswordFlag`
before the key at version 6 and after it at version 5; here the two
version-gated blocks are the named helpers above. -/
def ReadHeader (codec : Codecs) : M Header := do
  let magic ← M.wrapErr "read magic failed: " (readN 10)
  if magic ≠ fileMagic then M.fail "invalid file magic"
  let version ← M.wrapErr "read version failed: " readInt32
  let multiByteChars ← readInt32
  M.setMultiByte (multiByteChars == 1)
  let _unknownInt ← M.wrapErr "read unknown int failed: " readInt32
  let ds ← readDesignerBlock codec version
  let locale ← readShiftedString codec
  let codepage ← readShiftedString codec
  let texLock ← readInt32
  let pre ← readV6PreKeyFlags version
  let key ← readShiftedString codec
  let post ← readPostKeyBlock version
  let assembledHeight ← readF64raw
  let originOffset ← readN 24
  pure { Version := version, MultiByteChars := multiByteChars, DesignerID := ds.1,
         StringShift := ds.2, TexLock := texLock, Locale := locale,
         Codepage := codepage, Key := key, V6Lock := post.1,
         ShowStartupNotes := (if version = 6 then pre.1 else post.2.1),
         PasswordFlag := (if version = 6 then pre.2 else post.2.2),
         AssembledHeight := assembledHeight, OriginOffset := originOffset }

/-- The `[]Vertex3D` buffer filled by one `binary.Read`, split into
24-byte records. -/
def parseVertices : Nat → List Nat → List (Vertex3D Nat)
  | 0, _ => []
  | n + 1, bs =>
    { X := leNat (bs.take 8), Y := leNat ((bs.drop 8).take 8),
      Z := leNat ((bs.drop 16).take 8) } :: parseVertices n (bs.drop 24)

/-- Embedding of `Parser.ReadFace2DVertex`. -/
def readFace2DVertex : M (Face2DVertex Nat) := do
  let idVertex ← readInt32
  let x ← readF64raw
  let y ← readF64raw
  let u ← readF64raw
  let v ← readF64raw
  let flap ← readU8
  let flapHeight ← readF64raw
  let flapAAngle ← readF64raw
  let flapBAngle ← readF64raw
  let flapFoldInfo ← readN 24
  pure { IDVertex := idVertex, X := x, Y := y, U := u, V := v, Flap := flap,
         FlapHeight := flapHeight, FlapAAngle := flapAAngle, FlapBAngle := flapBAngle,
         FlapFoldInfo := flapFoldInfo }

def readFace2DVertices : Nat → M (List (Face2DVertex Nat))
  | 0 => pure []
  | n + 1 => do
    let v ← readFace2DVertex
    let rest ← readFace2DVertices n
    pure (v :: rest)

/-- Embedding of `Parser.ReadFace`. -/
def readFace : M (Face Nat) := do
  let materialIndex ← readInt32
  let partIndex ← readInt32
  let nx ← readF64raw
  let ny ← readF64raw
  let nz ← readF64raw
  let coord ← readF64raw
  let count ← readInt32
  if count < 0 then M.fail "panic: makeslice: len out of range"
  let vertices ← readFace2DVertices count.toNat
  pure { MaterialIndex := materialIndex, PartIndex := partIndex, Nx := nx, Ny := ny,
         Nz := nz, Coord := coord, Vertices := vertices }

def readFaces : Nat → M (List (Face Nat))
  | 0 => pure []
  | n + 1 => do
    let f ← readFace
    let rest ← readFaces n
    pure (f :: rest)

/-- One 22-byte packed edge record, read as a flat run. -/
def readEdge : M Edge := do
  let bs ← readN 22
  pure { Face1Index := toInt32 (leNat (bs.take 4)),
         Face2Index := toInt32 (leNat ((bs.drop 4).take 4)),
         Vertex1Index := toInt32 (leNat ((bs.drop 8).take 4)),
         Vertex2Index := toInt32 (leNat ((bs.drop 12).take 4)),
         ConnectsFaces := toInt16 (leNat ((bs.drop 16).take 2)),
         NoConnectedFace := toInt32 (leNat ((bs.drop 18).take 4)) }

def readEdges : Nat → M (List Edge)
  | 0 => pure []
  | n + 1 => do
    let e ← readEdge
    let rest ← readEdges n
    pure (e :: rest)

/-- Embedding of `Parser.ReadObject`. -/
def ReadObject (codec : Codecs) : M (Object Nat) := do
  let name ← readShiftedString codec
  let visible ← readU8
  let numVertices ← readInt32
  if numVertices < 0 then M.fail "panic: makeslice: len out of range"
  let vbytes ← readN (24 * numVertices.toNat)
  let numFaces ← readInt32
  if numFaces < 0 then M.fail "panic: makeslice: len out of range"
  let faces ← readFaces numFaces.toNat
  let numEdges ← readInt32
  if numEdges < 0 then M.fail "panic: makeslice: len out of range"
  let edges ← readEdges numEdges.toNat
  pure { Name := name, Visible := visible, Vertices := parseVertices numVertices.toNat vbytes,
         Faces := faces, Edges := edges }

def readObjectList (codec : Codecs) : Nat → M (List (Object Nat))
  | 0 => pure []
  | n + 1 => do
    let o ← ReadObject codec
    let rest ← readObjectList codec n
    pure (o :: rest)

/-- Embedding of `Parser.ReadObjects`. -/
def ReadObjects (codec : Codecs) : M (List (Object Nat)) := do
  let count ← readInt32
  if count < 0 then M.fail "panic: makeslice: len out of range"
  readObjectList codec count.toNat

/-- Embedding of `Parser.ReadTexture`. -/
def ReadTexture : M Texture := do
  let width ← readInt32
  let height ← readInt32
  let wrappedSize ← readInt32
  let dataSize := ((wrappedSize - 6) % 2 ^ 32).toNat
  let dataHeader ← readU16
  let rawData ← readN dataSize
  let dataHash ← readU32
  pure { Width := width, Height := height, DataSize := dataSize, DataHeader := dataHeader,
         DataHash := dataHash, TextureID := 0, RawData := rawData }

/-- Embedding of `Parser.ReadMaterial`: name, 3D color block, the 2D
color read in A,R,G,B order and stored as R,G,B,A, then the optional
texture block. -/
def ReadMaterial (codec : Codecs) : M (Material Nat) := do
  let name ← readShiftedString codec
  let color3D ← readN 64
  let a ← readU32
  let r ← readU32
  let g ← readU32
  let b ← readU32
  let texFlag ← readU8
  if texFlag == 1 then
    let tex ← ReadTexture
    pure { Name := name, Color3D := color3D, Color2DRGBA := [r, g, b, a],
           HasTexture := true, Texture := tex }
  else
    pure { Name := name, Color3D := color3D, Color2DRGBA := [r, g, b, a],
           HasTexture := false,
           Texture := { Width := 0, Height := 0, DataSize := 0, DataHeader := 0,
                        DataHash := 0, TextureID := -1, RawData := [] } }

/-- The decimal digits of `i` as ASCII bytes (`fmt.Sprintf("%d", i)`). -/
def decimalBytes (i : Nat) : List Nat := (Nat.toDigits 10 i).map Char.toNat

/-- The synthesized material name `named_material<N>`. -/
def namedMaterial (i : Nat) : List Nat :=
  [110, 97, 109, 101, 100, 95, 109, 97, 116, 101, 114, 105, 97, 108] ++ decimalBytes i

/-- The material loop of `Parser.ReadMaterials`: read a material, then
substitute the synthesized name when the decoded name is empty. -/
def readMaterialList (codec : Codecs) : Nat → Nat → M (List (Material Nat))
  | _, 0 => pure []
  | i, n + 1 => do
    let m ← ReadMaterial codec
    let m1 := if m.Name = [] then { m with Name := namedMaterial i } else m
    let rest ← readMaterialList codec (i + 1) n
    pure (m1 :: rest)

/-- Embedding of `Parser.ReadMaterials` (src/pkg/pdo/parser.go lines 314-330). -/
def ReadMaterials (codec : Codecs) : M (List (Material Nat)) := do
  let count ← readInt32
  if count < 0 then M.fail "panic: makeslice: len out of range"
  readMaterialList codec 0 count.toNat

/-- Embedding of `Parser.ReadLine`. -/
def readLine : M Line := do
  let isHidden ← readU8
  let lineType ← readInt32
  let _unknownByte ← readU8
  let faceIndex ← readInt32
  let vertexIndex ← readInt32
  let secondIndex ← readU8
  if secondIndex == 1 then
    let face2Index ← readInt32
    let vertex2Index ← readInt32
    pure { Hidden := isHidden == 1, LineType := lineType, FaceIndex := faceIndex,
           VertexIndex := vertexIndex, IsConnectingFaces := true,
           Face2Index := face2Index, Vertex2Index := vertex2Index }
  else
    pure { Hidden := isHidden == 1, LineType := lineType, FaceIndex := faceIndex,
           VertexIndex := vertexIndex, IsConnectingFaces := false,
           Face2Index := 0, Vertex2Index := 0 }

def readLines : Nat → M (List Line)
  | 0 => pure []
  | n + 1 => do
    let l ← readLine
    let rest ← readLines n
    pure (l :: rest)

/-- Embedding of `Parser.ReadPart` (part name present only above V4). -/
def ReadPart (codec : Codecs) (version : Int) : M (Part Nat) := do
  let objectIndex ← readInt32
  let boundingBox ← readRect
  let mut name : List Nat := []
  if version > 4 then
    name ← readShiftedString codec
  let count ← readInt32
  if count < 0 then M.fail "panic: makeslice: len out of range"
  let lines ← readLines count.toNat
  pure { ObjectIndex := objectIndex, BoundingBox := boundingBox, Name := name, Lines := lines }

def readPartList (codec : Codecs) (version : Int) : Nat → M (List (Part Nat))
  | 0 => pure []
  | n + 1 => do
    let p ← ReadPart codec version
    let rest ← readPartList codec version n
    pure (p :: rest)

/-- Embedding of `Parser.ReadParts`. -/
def ReadParts (codec : Codecs) (version : Int) : M (List (Part Nat)) := do
  let count ← readInt32
  if count < 0 then M.fail "panic: makeslice: len out of range"
  readPartList codec version count.toNat

def readStringList (codec : Codecs) : Nat → M (List (List Nat))
  | 0 => pure []
  | n + 1 => do
    let s ← readShiftedString codec
    let rest ← readStringList codec n
    pure (s :: rest)

/-- Embedding of `Parser.ReadTextBlock`. -/
def ReadTextBlock (codec : Codecs) : M (TextBlock Nat) := do
  let boundingBox ← readRect
  let lineSpacing ← readF64raw
  let color ← readInt32
  let fontSize ← readInt32
  let fontName ← readShiftedString codec
  let count ← readInt32
  if count < 0 then M.fail "panic: makeslice: len out of range"
  let lines ← readStringList codec count.toNat
  pure { BoundingBox := boundingBox, LineSpacing := lineSpacing, Color := color,
         FontSize := fontSize, FontName := fontName, Lines := lines }

def readTextBlockList (codec : Codecs) : Nat → M (List (TextBlock Nat))
  | 0 => pure []
  | n + 1 => do
    let tb ← ReadTextBlock codec
    let rest ← readTextBlockList codec n
    pure (tb :: rest)

/-- Embedding of `Parser.ReadTextBlocks`. -/
def ReadTextBlocks (codec : Codecs) : M (List (TextBlock Nat)) := do
  let count ← readInt32
  if count < 0 then M.fail "panic: makeslice: len out of range"
  readTextBlockList codec count.toNat

/-- Embedding of `Parser.ReadImage`. -/
def ReadImage : M (Image Nat) := do
  let boundingBox ← readRect
  let texture ← ReadTexture
  pure { BoundingBox := boundingBox, Texture := texture }

def readImageList : Nat → M (List (Image Nat))
  | 0 => pure []
  | n + 1 => do
    let img ← ReadImage
    let rest ← readImageList n
    pure (img :: rest)

/-- Embedding of `Parser.ReadImages`: two back-to-back count-prefixed
lists, concatenated. -/
def ReadImages : M (List (Image Nat)) := do
  let count ← readInt32
  if count < 0 then M.fail "panic: makeslice: len out of range"
  let imgs ← readImageList count.toNat
  let addCount ← readInt32
  if addCount > 0 then
    let more ← readImageList addCount.toNat
    pure (imgs ++ more)
  else
    pure imgs

/-- Embedding of `Parser.ReadUnfoldData`: presence flag, then scale,
one padding byte, bounding box, parts, text blocks and images. -/
def ReadUnfoldData (codec : Codecs) (version : Int) :
    M (Unfold Nat × List (Part Nat) × List (TextBlock Nat) × List (Image Nat)) := do
  let hasUnfold ← readU8
  if hasUnfold = 0 then
    pure ({ Scale := 0, BoundingBox := { Left := 0, Top := 0, Width := 0, Height := 0 } },
          [], [], [])
  else do
    let scale ← readF64raw
    let _padding ← readU8
    let boundingBox ← readRect
    let parts ← ReadParts codec version
    let textBlocks ← ReadTextBlocks codec
    let images ← ReadImages
    pure ({ Scale := scale, BoundingBox := boundingBox }, parts, textBlocks, images)

/-- The V6 pre-settings skip loop of `Parser.ReadSettings`. -/
def settingsSkipLoop : Nat → M Unit
  | 0 => pure ()
  | n + 1 => do
    let parts ← readInt32
    if parts < 0 then M.fail "panic: makeslice: len out of range"
    let _skip ← readN (4 * parts).toNat
    settingsSkipLoop n

/-- Embedding of `Parser.ReadSettings` (version-gated positional layout). -/
def ReadSettings (codec : Codecs) (version : Int) (partsLen : Nat) : M (Settings Nat) := do
  if version = 6 ∧ partsLen > 0 then
    let count ← readInt32
    settingsSkipLoop count.toNat
  let showFlaps ← readU8
  let showEdgeID ← readU8
  let edgeIDPlacement ← readU8
  let faceMaterial ← readU8
  let hideAlmostFlatFoldLines ← readU8
  let foldLinesHidingAngle ← readInt32
  let drawWhiteLineUnderDotLine ← readU8
  let mountainFoldLineStyle ← readInt32
  let valleyFoldLineStyle ← readInt32
  let cutLineStyle ← readInt32
  let edgeIDFontSize ← readInt32
  let pageType ← readInt32
  let mut customWidth : Nat := 0
  let mut customHeight : Nat := 0
  if pageType = 11 then
    customWidth ← readF64raw
    customHeight ← readF64raw
  let orientation ← readInt32
  let marginSide ← readInt32
  let marginTop ← readInt32
  let mountainFoldLinePattern ← readN 48
  let valleyFoldLinePattern ← readN 48
  let addOutlinePadding ← readU8
  let scaleFactor ← readF64raw
  let mut authorName : List Nat := []
  let mut comment : List Nat := []
  if version > 4 then
    authorName ← readShiftedString codec
    comment ← readShiftedString codec
  pure { ShowFlaps := showFlaps, ShowEdgeID := showEdgeID, EdgeIDPlacement := edgeIDPlacement,
         FaceMaterial := faceMaterial, HideAlmostFlatFoldLines := hideAlmostFlatFoldLines,
         FoldLinesHidingAngle := foldLinesHidingAngle,
         DrawWhiteLineUnderDotLine := drawWhiteLineUnderDotLine,
         MountainFoldLineStyle := mountainFoldLineStyle,
         ValleyFoldLineStyle := valleyFoldLineStyle, CutLineStyle := cutLineStyle,
         EdgeIDFontSize := edgeIDFontSize, PageType := pageType,
         CustomWidth := customWidth, CustomHeight := customHeight,
         Orientation := orientation, MarginTop := marginTop, MarginSide := marginSide,
         MountainFoldLinePattern := mountainFoldLinePattern,
         ValleyFoldLinePattern := valleyFoldLinePattern,
         AddOutlinePadding := addOutlinePadding, ScaleFactor := scaleFactor,
         AuthorName := authorName, Comment := comment }

/-- Embedding of `Parser.Load` (src/pkg/pdo/parser.go lines 44-61): the
five stages in order, each failure wrapped with its stage tag.  On any
error no model value is produced (`ParseFile` returns `nil` in Go). -/
def Load (codec : Codecs) : M (PDO Nat) := do
  let header ← M.wrapErr "failed to read header: " (ReadHeader codec)
  let objects ← M.wrapErr "failed to read objects: " (ReadObjects codec)
  let materials ← M.wrapErr "failed to read materials: " (ReadMaterials codec)
  let ufd ← M.wrapErr "failed to read unfold data: " (ReadUnfoldData codec header.Version)
  let settings ← M.wrapErr "failed to read settings: "
    (ReadSettings codec header.Version ufd.2.1.length)
  pure { Header := header, Objects := objects, Materials := materials,
         TextBlocks := ufd.2.2.1, Parts := ufd.2.1, Images := ufd.2.2.2,
         Settings := settings, Unfold := ufd.1 }

/-! ## Concrete fixtures used by witnesses and counterexamples -/

/-- A 2D loop vertex with the given 3D vertex ID and zero geometry. -/
def mkV (id : Int) : Face2DVertex ℚ :=
  { IDVertex := id, X := 0, Y := 0, U := 0, V := 0, Flap := 0, FlapHeight := 0,
    FlapAAngle := 0, FlapBAngle := 0, FlapFoldInfo := [] }

/-- A face whose loop has three vertices with distinct IDs 10, 20, 30. -/
def faceA : Face ℚ :=
  { MaterialIndex := -1, PartIndex := 0, Nx := 0, Ny := 0, Nz := 0, Coord := 0,
    Vertices := [mkV 10, mkV 20, mkV 30] }

/-- An object with the single face `faceA`. -/
def objA : Object ℚ :=
  { Name := [], Visible := 1, Vertices := [], Faces := [faceA], Edges := [] }

def zeroRect : Rect ℚ := { Left := 0, Top := 0, Width := 0, Height := 0 }

def trivialHeader : Header :=
  { Version := 4, MultiByteChars := 0, DesignerID := [], StringShift := 0, TexLock := 0,
    Locale := [], Codepage := [], Key := [], V6Lock := 0, ShowStartupNotes := 0,
    PasswordFlag := 0, AssembledHeight := 0, OriginOffset := [] }

def trivialSettings : Settings ℚ :=
  { ShowFlaps := 0, ShowEdgeID := 0, EdgeIDPlacement := 0, FaceMaterial := 0,
    HideAlmostFlatFoldLines := 0, FoldLinesHidingAngle := 0, DrawWhiteLineUnderDotLine := 0,
    MountainFoldLineStyle := 0, ValleyFoldLineStyle := 0, CutLineStyle := 0,
    EdgeIDFontSize := 0, PageType := 0, CustomWidth := 0, CustomHeight := 0,
    Orientation := 0, MarginTop := 0, MarginSide := 0, MountainFoldLinePattern := [],
    ValleyFoldLinePattern := [], AddOutlinePadding := 0, ScaleFactor := 0,
    AuthorName := [], Comment := [] }

def trivialPDO : PDO ℚ :=
  { Header := trivialHeader, Objects := [], Materials := [], TextBlocks := [], Parts := [],
    Images := [], Settings := trivialSettings,
    Unfold := { Scale := 0, BoundingBox := zeroRect } }

/-- A part anchored at the given global print-space position. -/
def partAt (l t : ℚ) : Part ℚ :=
  { ObjectIndex := 0, BoundingBox := { Left := l, Top := t, Width := 10, Height := 10 },
    Name := [], Lines := [] }

/-- The A4 settings of the orientation-swap example: MarginSide 10,
MarginTop 15, Orientation 1. -/
def settingsA4 : Settings ℚ :=
  { trivialSettings with
    PageType := 0
    MarginSide := 10
    MarginTop := 15
    Orientation := 1 }

def pA4 : PDO ℚ := { trivialPDO with Settings := settingsA4 }

/-- Page dimensions with clipped width 190 (A4 with side margin 10). -/
def dimsB : PageDims :=
  { Width := 210, Height := 297, MarginLeft := 10, MarginTop := 15,
    ClippedWidth := 190, ClippedHeight := 267 }

/-- Three parts at Left = 0, 190 and 189.999 on one canvas. -/
def pGrid : PDO ℚ :=
  { trivialPDO with Parts := [partAt 0 0, partAt 190 0, partAt (189999 / 1000) 0] }

/-! ## Properties of the net-geometry lookups -/

theorem findVertex_some {target : Int} {l : List (Face2DVertex ℚ)} {v : Face2DVertex ℚ}
    (h : findVertex target l = some v) : v.IDVertex = target ∧ v ∈ l := by
  induction l with
  | nil => simp [findVertex] at h
  | cons a rest ih =>
    simp only [findVertex] at h
    split at h
    · cases h
      exact ⟨by assumption, List.mem_cons_self _ _⟩
    · obtain ⟨h1, h2⟩ := ih h
      exact ⟨h1, List.mem_cons_of_mem _ h2⟩

theorem findVertex_none {target : Int} {l : List (Face2DVertex ℚ)}
    (h : ∀ v ∈ l, v.IDVertex ≠ target) : findVertex target l = none := by
  induction l with
  | nil => simp [findVertex]
  | cons a rest ih =>
    simp only [findVertex]
    rw [if_neg (h a (List.mem_cons_self _ _))]
    exact ih fun v hv => h v (List.mem_cons_of_mem _ hv)

theorem findVertexIdx_nodup {l : List (Face2DVertex ℚ)}
    (hnd : (l.map Face2DVertex.IDVertex).Nodup) (i : Nat) (hi : i < l.length) :
    findVertexIdx ((l.get ⟨i, hi⟩).IDVertex) l = some i := by
  induction l generalizing i with
  | nil => exact absurd hi (Nat.not_lt_zero i)
  | cons a rest ih =>
    cases i with
    | zero => simp [findVertexIdx]
    | succ j =>
      have hj : j < rest.length := Nat.lt_of_succ_lt_succ hi
      have hget : (a :: rest).get ⟨j + 1, hi⟩ = rest.get ⟨j, hj⟩ := rfl
      have hne : ¬ a.IDVertex = (rest.get ⟨j, hj⟩).IDVertex := by
        intro heq
        have hmem : (rest.get ⟨j, hj⟩).IDVertex ∈ rest.map Face2DVertex.IDVertex :=
          List.mem_map_of_mem _ (List.get_mem rest j hj)
        exact (List.nodup_cons.mp hnd).1 (heq ▸ hmem)
      rw [hget]
      simp only [findVertexIdx]
      rw [if_neg hne, ih (List.nodup_cons.mp hnd).2 j hj]
      rfl

/-- C2 counterexample: `get2DVertex` called with the negative face index
`-1` on an object with one face crashes (Go panics on the negative slice
index) instead of returning "not found". -/
theorem get2DVertex_neg_index_crashes :
    get2DVertex objA (-1) 0 = Except.error "panic: index out of range" := by rfl

/-- C2 (amended): for every nonnegative `FaceIndex`, `get2DVertex`
returns without crashing; a `FaceIndex` beyond the face count yields
"not found", a returned vertex is a loop entry of the addressed face
whose `IDVertex` matches, and a face containing no matching `IDVertex`
yields "not found". -/
theorem get2DVertex_total_of_nonneg (obj : Object ℚ) (faceIdx vertIdx : Int)
    (hfi : 0 ≤ faceIdx) :
    ∃ r, get2DVertex obj faceIdx vertIdx = Except.ok r ∧
      ((obj.Faces.length : Int) ≤ faceIdx → r = none) ∧
      (∀ v, r = some v → v.IDVertex = vertIdx ∧
        ∃ face, obj.Faces.get? faceIdx.toNat = some face ∧ v ∈ face.Vertices) ∧
      (∀ face, obj.Faces.get? faceIdx.toNat = some face →
        (∀ v ∈ face.Vertices, v.IDVertex ≠ vertIdx) → r = none) := by
  unfold get2DVertex
  by_cases hlen : (obj.Faces.length : Int) ≤ faceIdx
  · rw [if_pos hlen]
    exact ⟨none, rfl, fun _ => rfl, by simp, fun _ _ _ => rfl⟩
  · rw [if_neg hlen, if_neg (by omega : ¬ faceIdx < 0)]
    cases hget : obj.Faces.get? faceIdx.toNat with
    | none => exact ⟨none, rfl, fun _ => rfl, by simp, fun _ _ _ => rfl⟩
    | some face =>
      refine ⟨findVertex vertIdx face.Vertices, rfl, fun h => absurd h hlen, ?_, ?_⟩
      · intro v hv
        obtain ⟨h1, h2⟩ := findVertex_some hv
        exact ⟨h1, face, rfl, h2⟩
      · intro face2 hf2 hall
        cases hf2
        exact findVertex_none hall

/-- C2 witness: the amended statement applied at the concrete object
`objA` and face index 0. -/
theorem get2DVertex_total_witness :
    (0 : Int) ≤ 0 ∧ ∃ r, get2DVertex objA 0 0 = Except.ok r := by
  obtain ⟨r, hr, -, -, -⟩ := get2DVertex_total_of_nonneg objA 0 0 (by decide)
  exact ⟨by decide, r, hr⟩

/-- C3: on a face whose loop vertices carry pairwise-distinct
`IDVertex` values, `getNext2DVertex` at the ID of loop entry `i`
returns loop entry `(i + 1) % N`, wraparound included. -/
theorem getNext2DVertex_cyclic_successor (obj : Object ℚ) (j : Nat) (face : Face ℚ)
    (hface : obj.Faces.get? j = some face)
    (hnd : (face.Vertices.map Face2DVertex.IDVertex).Nodup)
    (i : Nat) (hi : i < face.Vertices.length) :
    getNext2DVertex obj (j : Int) ((face.Vertices.get ⟨i, hi⟩).IDVertex) =
      Except.ok (some (face.Vertices.get
        ⟨(i + 1) % face.Vertices.length, Nat.mod_lt _ (by omega)⟩)) := by
  obtain ⟨hjl, hjget⟩ := List.get?_eq_some.mp hface
  unfold getNext2DVertex
  rw [if_neg (by exact_mod_cast Nat.not_le.mpr hjl),
      if_neg (not_lt.mpr (Int.natCast_nonneg j))]
  simp only [Int.toNat_natCast, hface, findVertexIdx_nodup hnd i hi,
    List.get?_eq_get (Nat.mod_lt _ (by omega : 0 < face.Vertices.length))]

/-- C3 witness: wraparound on the three-vertex loop of `faceA`
(IDs 10, 20, 30): the successor of ID 30 (index 2) is index 0. -/
theorem getNext2DVertex_cyclic_witness :
    getNext2DVertex objA 0 30 = Except.ok (some (mkV 10)) := by
  have h := getNext2DVertex_cyclic_successor objA 0 faceA rfl (by decide) 2 (by decide)
  exact h

/-! ## Properties of the page-layout engine -/

/-- C6: with Orientation set, `getPageDims` swaps width with height and
the side margin with the top margin (relative to the same settings with
Orientation unset); the clipped dimensions always equal the effective
full dimension minus twice the corresponding margin; and the concrete
A4 example (210 x 297, margins 10/15, Orientation 1) yields 297 x 210
with MarginLeft 15 and MarginTop 10. -/
theorem getPageDims_spec (p : PDO ℚ) :
    (p.Settings.Orientation = 1 →
      (getPageDims p).Width =
        (getPageDims { p with Settings := { p.Settings with Orientation := 0 } }).Height ∧
      (getPageDims p).Height =
        (getPageDims { p with Settings := { p.Settings with Orientation := 0 } }).Width ∧
      (getPageDims p).MarginLeft =
        (getPageDims { p with Settings := { p.Settings with Orientation := 0 } }).MarginTop ∧
      (getPageDims p).MarginTop =
        (getPageDims { p with Settings := { p.Settings with Orientation := 0 } }).MarginLeft) ∧
    (getPageDims p).ClippedWidth = (getPageDims p).Width - 2 * (getPageDims p).MarginLeft ∧
    (getPageDims p).ClippedHeight = (getPageDims p).Height - 2 * (getPageDims p).MarginTop ∧
    (getPageDims pA4).Width = 297 ∧ (getPageDims pA4).Height = 210 ∧
    (getPageDims pA4).MarginLeft = 15 ∧ (getPageDims pA4).MarginTop = 10 := by
  refine ⟨?_, rfl, rfl, by decide, by decide, by decide, by decide⟩
  intro h1
  simp only [getPageDims, h1]
  norm_num

/-- C6 witness: the orientation-swap implication applied at the
concrete A4 model `pA4`. -/
theorem getPageDims_spec_witness :
    pA4.Settings.Orientation = 1 ∧
      (getPageDims pA4).Width =
        (getPageDims { pA4 with Settings := { pA4.Settings with Orientation := 0 } }).Height :=
  ⟨rfl, ((getPageDims_spec pA4).1 rfl).1⟩

/-- C7: every part is placed on the page cell given by the floors of
`Left / ClippedWidth` and `Top / ClippedHeight`, it appears on no other
cell, and the concrete boundary examples with clipped width 190 hold:
Left 0 and Left 189.999 fall in column 0, Left 190 in column 1. -/
theorem pageGrid_assignment (p : PDO ℚ) (dims : PageDims) :
    (∀ part ∈ p.Parts,
      part ∈ getPartsOnPage p (Int.floor (part.BoundingBox.Left / dims.ClippedWidth))
        (Int.floor (part.BoundingBox.Top / dims.ClippedHeight)) dims) ∧
    (∀ part px py, part ∈ getPartsOnPage p px py dims →
      px = Int.floor (part.BoundingBox.Left / dims.ClippedWidth) ∧
      py = Int.floor (part.BoundingBox.Top / dims.ClippedHeight)) ∧
    partAt 0 0 ∈ getPartsOnPage pGrid 0 0 dimsB ∧
    partAt 190 0 ∈ getPartsOnPage pGrid 1 0 dimsB ∧
    partAt (189999 / 1000) 0 ∈ getPartsOnPage pGrid 0 0 dimsB ∧
    partAt (189999 / 1000) 0 ∉ getPartsOnPage pGrid 1 0 dimsB := by
  refine ⟨?_, ?_, ?_, ?_, ?_, ?_⟩
  · intro part hmem
    simp [getPartsOnPage, List.mem_filter, hmem]
  · intro part px py hmem
    simp only [getPartsOnPage, List.mem_filter, decide_eq_true_eq] at hmem
    exact ⟨hmem.2.1.symm, hmem.2.2.symm⟩
  · norm_num [getPartsOnPage, pGrid, dimsB, partAt, List.mem_filter]
  · norm_num [getPartsOnPage, pGrid, dimsB, partAt, List.mem_filter]
  · norm_num [getPartsOnPage, pGrid, dimsB, partAt, List.mem_filter]
  · norm_num [getPartsOnPage, pGrid, dimsB, partAt, List.mem_filter]

/-- C7 witness: the per-part assignment applied at the concrete canvas
`pGrid` for the part anchored at Left 190. -/
theorem pageGrid_assignment_witness :
    partAt 190 0 ∈ getPartsOnPage pGrid
      (Int.floor ((partAt 190 0).BoundingBox.Left / dimsB.ClippedWidth))
      (Int.floor ((partAt 190 0).BoundingBox.Top / dimsB.ClippedHeight)) dimsB :=
  (pageGrid_assignment pGrid dimsB).1 (partAt 190 0) (by decide)

/-! ## Properties of the texture payload codec -/

/-- A 2 x 2 texture whose inflated stream is required to hold
2 * 2 * 3 = 12 bytes. -/
def texC5 : Texture :=
  { Width := 2, Height := 2, DataSize := 1, DataHeader := 0, DataHash := 0,
    TextureID := 0, RawData := [120] }

/-- A texture with negative stored width (readable from a file, since
`Width` is a plain `int32` field). -/
def texNegW : Texture :=
  { Width := -1, Height := 1, DataSize := 1, DataHeader := 0, DataHash := 0,
    TextureID := 0, RawData := [0] }

/-- A 1 x 1 texture used for the surplus-bytes witness. -/
def texSmall : Texture :=
  { Width := 1, Height := 1, DataSize := 1, DataHeader := 0, DataHash := 0,
    TextureID := 0, RawData := [9] }

/-- C5: whenever `GetImage` succeeds, the produced buffer is exactly the
first `Width * Height * 3` inflated bytes; and whenever the inflated
stream yields fewer bytes than that (short or malformed-early stream),
`GetImage` returns a decode error rather than a short buffer. -/
theorem GetImage_spec (t : Texture) (inflated : List Nat) :
    (∀ buf, GetImage t inflated = TexResult.ok buf →
      (buf.length : Int) = t.Width * t.Height * 3 ∧
      buf = inflated.take (t.Width * t.Height * 3).toNat) ∧
    ((inflated.length : Int) < t.Width * t.Height * 3 →
      ∃ msg, GetImage t inflated = TexResult.err msg) := by
  constructor
  · intro buf h
    simp only [GetImage] at h
    split at h
    · exact TexResult.noConfusion h
    · split at h
      · exact TexResult.noConfusion h
      · split at h
        · next hneg hle =>
          cases h
          refine ⟨?_, rfl⟩
          rw [List.length_take]
          omega
        · exact TexResult.noConfusion h
  · intro hlt
    simp only [GetImage]
    split
    · exact ⟨"no texture data", rfl⟩
    · split
      · next _ hneg => exact absurd hlt (by omega)
      · split
        · next _ hneg hle => exact absurd hlt (by omega)
        · exact ⟨"deflate read failed: unexpected EOF", rfl⟩

/-- C5 witness: a 2 x 2 texture whose stream inflates to only 3 bytes
yields a decode error. -/
theorem GetImage_spec_witness :
    ((([0, 0, 0] : List Nat).length : Int) < texC5.Width * texC5.Height * 3 ∧
      ∃ msg, GetImage texC5 [0, 0, 0] = TexResult.err msg) :=
  ⟨by decide, (GetImage_spec texC5 [0, 0, 0]).2 (by decide)⟩

/-- C9 counterexample: for a texture with stored width `-1`, an inflated
stream longer than `Width * Height * 3` does not make the decode
succeed: `make([]byte, expectedSize)` panics on the negative size. -/
theorem GetImage_negative_width_crashes :
    texNegW.Width * texNegW.Height * 3 < (([7, 7, 7] : List Nat).length : Int) ∧
      GetImage texNegW [7, 7, 7] = TexResult.crash "makeslice: len out of range" :=
  ⟨by decide, by rfl⟩

/-- C9 (amended): for a texture with nonnegative dimensions and a
nonempty compressed payload, an inflated stream of at least
`Width * Height * 3` bytes decodes successfully and all surplus
inflated bytes are ignored. -/
theorem GetImage_surplus_ignored (t : Texture) (inflated : List Nat)
    (hW : 0 ≤ t.Width) (hH : 0 ≤ t.Height) (hraw : t.RawData ≠ [])
    (hlen : (t.Width * t.Height * 3).toNat ≤ inflated.length) :
    GetImage t inflated = TexResult.ok (inflated.take (t.Width * t.Height * 3).toNat) := by
  have hnn : 0 ≤ t.Width * t.Height * 3 :=
    mul_nonneg (mul_nonneg hW hH) (by norm_num)
  simp only [GetImage]
  rw [if_neg (by simpa [List.length_eq_zero] using hraw), if_neg (not_lt.mpr hnn),
    if_pos hlen]

/-- C9 witness: the 1 x 1 texture decoded from a 4-byte inflated stream
takes the first 3 bytes and ignores the surplus. -/
theorem GetImage_surplus_witness :
    GetImage texSmall [1, 2, 3, 4] = TexResult.ok [1, 2, 3] :=
  GetImage_surplus_ignored texSmall [1, 2, 3, 4] (by decide) (by decide) (by decide) (by decide)

/-! ## Properties of the byte-stream decoder -/

theorem M.bind_def {α β : Type} (x : M α) (f : α → M β) (s : ParseState) :
    (x >>= f) s =
      match x s with
      | (Except.ok a, s1) => f a s1
      | (Except.error e, s1) => (Except.error e, s1) := rfl

theorem M.pure_def {α : Type} (a : α) (s : ParseState) : (pure a : M α) s = (Except.ok a, s) :=
  rfl

theorem M.getState_def (s : ParseState) : M.getState s = (Except.ok s, s) := rfl

theorem readN_append (pre rest : List Nat) (st : ParseState) (h : st.input = pre ++ rest) :
    readN pre.length st = (Except.ok pre, { st with input := rest }) := by
  have hle : pre.length ≤ st.input.length := by
    rw [h, List.length_append]
    omega
  simp [readN, hle, h]

theorem leNat_int32Bytes (v : Int) : leNat (int32Bytes v) = (v % 2 ^ 32).toNat := by
  have hnn : 0 ≤ v % 2 ^ 32 := Int.emod_nonneg v (by norm_num)
  have hlt : v % 2 ^ 32 < 2 ^ 32 := Int.emod_lt_of_pos v (by norm_num)
  simp only [int32Bytes, leNat]
  omega

theorem toInt32_int32Bytes (v : Int) (h1 : -2 ^ 31 ≤ v) (h2 : v < 2 ^ 31) :
    toInt32 (leNat (int32Bytes v)) = v := by
  have hnn : 0 ≤ v % 2 ^ 32 := Int.emod_nonneg v (by norm_num)
  have hlt : v % 2 ^ 32 < 2 ^ 32 := Int.emod_lt_of_pos v (by norm_num)
  have hcast : ((v % 2 ^ 32).toNat : Int) = v % 2 ^ 32 := Int.toNat_of_nonneg hnn
  rw [leNat_int32Bytes]
  simp only [toInt32]
  split <;> omega

theorem readInt32_eq (v : Int) (rest : List Nat) (st : ParseState)
    (h1 : -2 ^ 31 ≤ v) (h2 : v < 2 ^ 31) (hin : st.input = int32Bytes v ++ rest) :
    readInt32 st = (Except.ok v, { st with input := rest }) := by
  have h4 := readN_append (int32Bytes v) rest st hin
  have hlen4 : (int32Bytes v).length = 4 := rfl
  rw [hlen4] at h4
  simp only [readInt32, M.bind_def, h4, M.pure_def, toInt32_int32Bytes v h1 h2]

theorem tdiv_two_nonpos (a : Int) (h : a < 0) : Int.tdiv a 2 ≤ 0 := by
  cases a with
  | ofNat n => exact absurd h (not_lt.mpr (Int.ofNat_nonneg n))
  | negSucc m =>
    show -(Int.ofNat (m.succ / 2)) ≤ 0
    exact neg_nonpos.mpr (Int.ofNat_nonneg _)

/-- C10: a zero or negative 4-byte length prefix makes `ReadString`
return the empty string with no error, in both single-byte and
multi-byte mode, consuming nothing beyond the prefix. -/
theorem readString_nonpositive_count (codec : Codecs) (shift : Nat) (st : ParseState)
    (wl : Int) (rest : List Nat) (hin : st.input = int32Bytes wl ++ rest)
    (h1 : -2 ^ 31 ≤ wl) (h2 : wl ≤ 0) :
    readString codec shift st = (Except.ok [], { st with input := rest }) := by
  have hri := readInt32_eq wl rest st h1 (by omega) hin
  simp only [readString, M.bind_def, hri]
  by_cases h0 : wl = 0
  · simp [h0, M.pure_def]
  · rw [if_neg h0]
    simp only [M.bind_def, M.getState_def]
    by_cases hmb : st.multiByte
    · have htd : Int.tdiv wl 2 ≤ 0 := tdiv_two_nonpos wl (by omega)
      simp [hmb, if_pos htd, M.pure_def]
    · simp [hmb, if_pos h2, M.pure_def]

/-- C10 witness: prefix `-5` in multi-byte mode returns the empty
string and leaves the remaining two bytes unread. -/
theorem readString_nonpositive_witness :
    readString asciiCodec 3 ⟨[251, 255, 255, 255, 7, 7], 0, 3, true⟩ =
      (Except.ok [], ⟨[7, 7], 0, 3, true⟩) := by
  have h := readString_nonpositive_count asciiCodec 3
    ⟨[251, 255, 255, 255, 7, 7], 0, 3, true⟩ (-5) [7, 7] (by rfl) (by decide) (by decide)
  exact h

theorem collectBytes_shifted (shift : Nat) (enc : List Nat)
    (henc : ∀ b ∈ enc, b < 256 ∧ b ≠ 0) :
    collectBytes shift (enc.map (fun b => (b + shift) % 256) ++ [shift]) = enc := by
  induction enc with
  | nil =>
    have hz : bsub shift shift = 0 := by
      unfold bsub
      omega
    simp [collectBytes, hz]
  | cons b tl ih =>
    have hb := henc b (List.mem_cons_self _ _)
    have hv : bsub ((b + shift) % 256) shift = b := by
      unfold bsub
      omega
    simp only [List.map_cons, List.cons_append, collectBytes, hv, List.append_eq]
    rw [if_neg hb.2]
    rw [ih fun x hx => henc x (List.mem_cons_of_mem _ hx)]

/-- C4 counterexample: with shift S = 1 and the text `"\x00"` (one NUL
byte, whose Shift-JIS encoding is the single byte 0), the hand-built
buffer has length prefix 2 and bytes `[(0+1) % 256, 1]` — every byte of
it is nonzero after adding S — yet `ReadString` returns the empty
string, not the original text: the terminator comparison happens on the
un-shifted value, so the precondition "nonzero after adding S" does not
protect the NUL payload byte. -/
theorem readString_shift_claim_false :
    (0 + 1) % 256 ≠ 0 ∧ asciiCodec.sjisDec [0] = some [0] ∧
    readString asciiCodec 1 ⟨[2, 0, 0, 0, 1, 1], 0, 1, false⟩ =
      (Except.ok [], ⟨[], 0, 1, false⟩) ∧
    ([] : List Nat) ≠ [0] := by
  refine ⟨by decide, by rfl, by rfl, by decide⟩

/-- C4 (amended): for every shift S and every text whose Shift-JIS
encoding consists of nonzero bytes, `ReadString` with shift S on the
buffer built by adding S to each encoded byte plus a terminator unit
that shifts to zero recovers exactly the pre-shift text. -/
theorem readString_shift_roundtrip (codec : Codecs) (shift : Nat) (enc text rest : List Nat)
    (st : ParseState) (_hs : shift < 256) (henc : ∀ b ∈ enc, b < 256 ∧ b ≠ 0)
    (hdec : codec.sjisDec enc = some text) (hmb : st.multiByte = false)
    (hlen : (enc.length : Int) + 1 < 2 ^ 31)
    (hin : st.input = int32Bytes ((enc.length : Int) + 1) ++
      ((enc.map (fun b => (b + shift) % 256) ++ [shift]) ++ rest)) :
    readString codec shift st = (Except.ok text, { st with input := rest }) := by
  obtain ⟨inp, fl, sh, mb⟩ := st
  subst hmb
  have hri := readInt32_eq ((enc.length : Int) + 1) _ ⟨inp, fl, sh, false⟩ (by omega) hlen hin
  simp only [readString, M.bind_def, hri]
  rw [if_neg (by omega : ¬ (enc.length : Int) + 1 = 0)]
  simp only [M.bind_def, M.getState_def, Bool.false_eq_true, if_false]
  rw [if_neg (by omega : ¬ (enc.length : Int) + 1 ≤ 0)]
  have hto : ((enc.length : Int) + 1).toNat =
      (enc.map (fun b => (b + shift) % 256) ++ [shift]).length := by
    simp
  have hrn := readN_append (enc.map (fun b => (b + shift) % 256) ++ [shift]) rest
    ⟨(enc.map (fun b => (b + shift) % 256) ++ [shift]) ++ rest, fl, sh, false⟩ rfl
  rw [hto]
  simp only [M.bind_def, hrn, collectBytes_shifted shift enc henc, hdec, M.pure_def]

/-- C4 witness: the amended round-trip at shift 1 with the ASCII text
"ABC" (the test vector of the repository): stored bytes 42 43 44 01
decode back to 41 42 43. -/
theorem readString_shift_roundtrip_witness :
    readString asciiCodec 1 ⟨[4, 0, 0, 0, 66, 67, 68, 1], 0, 1, false⟩ =
      (Except.ok [65, 66, 67], ⟨[], 0, 1, false⟩) := by
  have h := readString_shift_roundtrip asciiCodec 1 [65, 66, 67] [65, 66, 67] []
    ⟨[4, 0, 0, 0, 66, 67, 68, 1], 0, 1, false⟩
    (by decide) (by decide) (by rfl) (by rfl) (by decide) (by rfl)
  exact h

/-! ## Properties of the structural parser -/

theorem M.bind_ok {α β : Type} {x : M α} {f : α → M β} {s s2 : ParseState} {b : β}
    (h : (x >>= f) s = (Except.ok b, s2)) :
    ∃ a s1, x s = (Except.ok a, s1) ∧ f a s1 = (Except.ok b, s2) := by
  rw [M.bind_def] at h
  rcases hx : x s with ⟨ea, s1⟩
  rw [hx] at h
  cases ea with
  | ok a => exact ⟨a, s1, rfl, h⟩
  | error e => simp at h

theorem M.wrapErr_ok {α : Type} {tag : String} {x : M α} {s s2 : ParseState} {a : α}
    (h : M.wrapErr tag x s = (Except.ok a, s2)) : x s = (Except.ok a, s2) := by
  unfold M.wrapErr at h
  rcases hx : x s with ⟨ea, s1⟩
  rw [hx] at h
  cases ea with
  | ok a2 => exact h
  | error e => simp at h

theorem readMaterialList_ok (codec : Codecs) :
    ∀ (n start : Nat) (st : ParseState) (mats : List (Material Nat)) (st2 : ParseState),
      readMaterialList codec start n st = (Except.ok mats, st2) →
      mats.length = n ∧
      ∀ i (hi : i < mats.length), ∃ m stA stB,
        ReadMaterial codec stA = (Except.ok m, stB) ∧
        mats.get ⟨i, hi⟩ =
          (if m.Name = [] then { m with Name := namedMaterial (start + i) } else m) := by
  intro n
  induction n with
  | zero =>
    intro start st mats st2 h
    simp only [readMaterialList, M.pure_def, Prod.mk.injEq, Except.ok.injEq] at h
    obtain ⟨hmats, -⟩ := h
    subst hmats
    exact ⟨rfl, fun i hi => absurd hi (Nat.not_lt_zero i)⟩
  | succ k ih =>
    intro start st mats st2 h
    simp only [readMaterialList] at h
    obtain ⟨m, s1, hm, h2⟩ := M.bind_ok h
    obtain ⟨restL, s2, hrest, h3⟩ := M.bind_ok h2
    simp only [M.pure_def, Prod.mk.injEq, Except.ok.injEq] at h3
    obtain ⟨hmats, -⟩ := h3
    subst hmats
    obtain ⟨hlen, hprop⟩ := ih (start + 1) s1 restL s2 hrest
    refine ⟨by simp [hlen], ?_⟩
    intro i hi
    cases i with
    | zero => exact ⟨m, st, s1, hm, rfl⟩
    | succ j =>
      have hj : j < restL.length := by
        simp only [List.length_cons] at hi
        omega
      obtain ⟨m2, stA, stB, hm2, hget⟩ := hprop j hj
      refine ⟨m2, stA, stB, hm2, ?_⟩
      rw [show start + (j + 1) = start + 1 + j by omega]
      exact hget

/-- C8: a successful parse leaves no material with an empty name, and
each parsed material is exactly the raw decoded material with the
synthesized name `named_material<i>` substituted precisely when the
decoded name was empty (`i` the zero-based material index). -/
theorem load_materials_named (codec : Codecs) (st : ParseState) (pdo : PDO Nat)
    (st2 : ParseState) (h : Load codec st = (Except.ok pdo, st2)) :
    (∀ m ∈ pdo.Materials, m.Name ≠ []) ∧
    (∀ i (hi : i < pdo.Materials.length), ∃ m stA stB,
      ReadMaterial codec stA = (Except.ok m, stB) ∧
      pdo.Materials.get ⟨i, hi⟩ =
        (if m.Name = [] then { m with Name := namedMaterial i } else m)) := by
  simp only [Load] at h
  obtain ⟨header, s1, hh, h⟩ := M.bind_ok h
  obtain ⟨objects, s2, ho, h⟩ := M.bind_ok h
  obtain ⟨materials, s3, hmm, h⟩ := M.bind_ok h
  obtain ⟨ufd, s4, hu, h⟩ := M.bind_ok h
  obtain ⟨settings, s5, hs, h⟩ := M.bind_ok h
  simp only [M.pure_def, Prod.mk.injEq, Except.ok.injEq] at h
  obtain ⟨hpdo, -⟩ := h
  have hmats : pdo.Materials = materials := by rw [← hpdo]
  have hrm := M.wrapErr_ok hmm
  simp only [ReadMaterials] at hrm
  obtain ⟨count, t1, hc, hrm2⟩ := M.bind_ok hrm
  by_cases hneg : count < 0
  · rw [if_pos hneg] at hrm2
    exact Except.noConfusion (congrArg Prod.fst hrm2)
  · rw [if_neg hneg] at hrm2
    obtain ⟨hlen, hprop⟩ := readMaterialList_ok codec count.toNat 0 t1 materials _ hrm2
    constructor
    · rw [hmats]
      intro m hm
      obtain ⟨⟨i, hi⟩, hgi⟩ := List.mem_iff_get.mp hm
      obtain ⟨m0, stA, stB, hm0, hget⟩ := hprop i hi
      by_cases hn : m0.Name = []
      · rw [if_pos hn] at hget
        rw [← hgi, hget]
        simp [namedMaterial]
      · rw [if_neg hn] at hget
        rw [← hgi, hget]
        exact hn
    · rw [hmats]
      intro i hi
      have h2 := hprop i hi
      simp only [Nat.zero_add] at h2
      exact h2

/-- A minimal complete PDO file: magic, version 4, zero objects, one
material with an empty name, unfold-absent flag, and an all-zero
Settings block. -/
def c8Input : List Nat :=
  fileMagic ++ [4, 0, 0, 0] ++ List.replicate 56 0 ++ [0, 0, 0, 0] ++ [1, 0, 0, 0] ++
    List.replicate 86 0 ++ List.replicate 147 0

theorem M.wrapErr_eq_ok {α : Type} (tag : String) {x : M α} {s s1 : ParseState} {a : α}
    (h : x s = (Except.ok a, s1)) : M.wrapErr tag x s = (Except.ok a, s1) := by
  unfold M.wrapErr
  rw [h]

theorem M.wrapErr_eq_error {α : Type} (tag : String) {x : M α} {s s1 : ParseState}
    {e : String} (h : x s = (Except.error e, s1)) :
    M.wrapErr tag x s = (Except.error (tag ++ e), s1) := by
  unfold M.wrapErr
  rw [h]

set_option maxRecDepth 100000 in
/-- C8 witness: parsing the minimal file `c8Input` succeeds and every
material of the resulting model has a non-empty name.  The evaluation
is staged per parser stage to keep each intermediate state concrete. -/
theorem load_materials_named_witness :
    ∃ pdo st2, Load asciiCodec ⟨c8Input, 0, 0, false⟩ = (Except.ok pdo, st2) ∧
      ∀ m ∈ pdo.Materials, m.Name ≠ [] := by
  have hH : ReadHeader asciiCodec ⟨c8Input, 0, 0, false⟩ =
      (Except.ok ⟨4, 0, [], 0, 0, [], [], [], 0, 0, 0, 0, List.replicate 24 0⟩,
        ⟨[0, 0, 0, 0] ++ [1, 0, 0, 0] ++ List.replicate 86 0 ++ List.replicate 147 0,
          0, 0, false⟩) := by rfl
  have hO : ReadObjects asciiCodec
      ⟨[0, 0, 0, 0] ++ [1, 0, 0, 0] ++ List.replicate 86 0 ++ List.replicate 147 0,
        0, 0, false⟩ =
      (Except.ok [],
        ⟨[1, 0, 0, 0] ++ List.replicate 86 0 ++ List.replicate 147 0, 0, 0, false⟩) := by rfl
  have hM : ReadMaterials asciiCodec
      ⟨[1, 0, 0, 0] ++ List.replicate 86 0 ++ List.replicate 147 0, 0, 0, false⟩ =
      (Except.ok [⟨namedMaterial 0, List.replicate 64 0, [0, 0, 0, 0], false,
          ⟨0, 0, 0, 0, 0, -1, []⟩⟩],
        ⟨List.replicate 1 0 ++ List.replicate 147 0, 0, 0, false⟩) := by rfl
  have hU : ReadUnfoldData asciiCodec 4
      ⟨List.replicate 1 0 ++ List.replicate 147 0, 0, 0, false⟩ =
      (Except.ok (⟨0, ⟨0, 0, 0, 0⟩⟩, [], [], []),
        ⟨List.replicate 147 0, 0, 0, false⟩) := by rfl
  have hS : ReadSettings asciiCodec 4 0 ⟨List.replicate 147 0, 0, 0, false⟩ =
      (Except.ok ⟨0, 0, 0, 0, 0, 0, 0, 0, 0, 0, 0, 0, 0, 0, 0, 0, 0,
          List.replicate 48 0, List.replicate 48 0, 0, 0, [], []⟩,
        ⟨[], 0, 0, false⟩) := by rfl
  have hLoad : Load asciiCodec ⟨c8Input, 0, 0, false⟩ =
      (Except.ok
        ⟨⟨4, 0, [], 0, 0, [], [], [], 0, 0, 0, 0, List.replicate 24 0⟩, [],
          [⟨namedMaterial 0, List.replicate 64 0, [0, 0, 0, 0], false,
            ⟨0, 0, 0, 0, 0, -1, []⟩⟩], [], [], [],
          ⟨0, 0, 0, 0, 0, 0, 0, 0, 0, 0, 0, 0, 0, 0, 0, 0, 0,
            List.replicate 48 0, List.replicate 48 0, 0, 0, [], []⟩,
          ⟨0, ⟨0, 0, 0, 0⟩⟩⟩,
        ⟨[], 0, 0, false⟩) := by
    simp only [Load, M.bind_def, M.wrapErr_eq_ok "failed to read header: " hH,
      M.wrapErr_eq_ok "failed to read objects: " hO,
      M.wrapErr_eq_ok "failed to read materials: " hM,
      M.wrapErr_eq_ok "failed to read unfold data: " hU, List.length_nil,
      M.wrapErr_eq_ok "failed to read settings: " hS, M.pure_def]
  exact ⟨_, _, hLoad, (load_materials_named asciiCodec _ _ _ hLoad).1⟩

/-- A version-6 file truncated inside the lock-skip area of the header:
magic, version 6, multi-byte flag 0, unknown int, empty designer ID,
shift 0, empty locale, codepage and key, TexLock 0, the two V6 flag
bytes, `V6Lock = 2`, and then only 3 of the 16 junk bytes the two
8-byte skip blocks need. -/
def c1Input : List Nat :=
  fileMagic ++ [6, 0, 0, 0] ++ [0, 0, 0, 0] ++ [0, 0, 0, 0] ++ [0, 0, 0, 0] ++ [0, 0, 0, 0] ++
    [0, 0, 0, 0] ++ [0, 0, 0, 0] ++ [0, 0, 0, 0] ++ [0] ++ [0] ++ [0, 0, 0, 0] ++
    [2, 0, 0, 0] ++ [9, 9, 9]

/-- C1 evidence: on `c1Input` the parser does return a header-tagged
error and no model, but `failed = 3`: three distinct primitive reads
fail in one run.  Under the claimed policy — every primitive-read
failure aborts the parse immediately and none is silently ignored — at
most one read per run could fail; here the V6 lock-skip loop
(src/pkg/pdo/parser.go lines 148-153) discards the error of its first
8-byte read and parsing continues, so two further reads fail.  The
evaluation is staged read-by-read to keep every intermediate state
concrete. -/
theorem load_ignored_read_failure :
    Load asciiCodec ⟨c1Input, 0, 0, false⟩ =
      (Except.error "failed to read header: EOF", ⟨[], 3, 0, false⟩) ∧
    1 < (Load asciiCodec ⟨c1Input, 0, 0, false⟩).2.failed := by
  have h1 : readN 10 ⟨c1Input, 0, 0, false⟩ =
      (Except.ok fileMagic, ⟨[6, 0, 0, 0, 0, 0, 0, 0, 0, 0, 0, 0, 0, 0, 0, 0, 0, 0, 0, 0, 0, 0, 0, 0, 0, 0, 0, 0, 0, 0, 0, 0, 0, 0, 0, 0, 0, 0, 2, 0, 0, 0, 9, 9, 9], 0, 0, false⟩) := by rfl
  have h2 : readInt32 ⟨[6, 0, 0, 0, 0, 0, 0, 0, 0, 0, 0, 0, 0, 0, 0, 0, 0, 0, 0, 0, 0, 0, 0, 0, 0, 0, 0, 0, 0, 0, 0, 0, 0, 0, 0, 0, 0, 0, 2, 0, 0, 0, 9, 9, 9], 0, 0, false⟩ =
      (Except.ok 6, ⟨[0, 0, 0, 0, 0, 0, 0, 0, 0, 0, 0, 0, 0, 0, 0, 0, 0, 0, 0, 0, 0, 0, 0, 0, 0, 0, 0, 0, 0, 0, 0, 0, 0, 0, 2, 0, 0, 0, 9, 9, 9], 0, 0, false⟩) := by rfl
  have h3 : readInt32 ⟨[0, 0, 0, 0, 0, 0, 0, 0, 0, 0, 0, 0, 0, 0, 0, 0, 0, 0, 0, 0, 0, 0, 0, 0, 0, 0, 0, 0, 0, 0, 0, 0, 0, 0, 2, 0, 0, 0, 9, 9, 9], 0, 0, false⟩ =
      (Except.ok 0, ⟨[0, 0, 0, 0, 0, 0, 0, 0, 0, 0, 0, 0, 0, 0, 0, 0, 0, 0, 0, 0, 0, 0, 0, 0, 0, 0, 0, 0, 0, 0, 2, 0, 0, 0, 9, 9, 9], 0, 0, false⟩) := by rfl
  have h4 : M.setMultiByte ((0 : Int) == 1) ⟨[0, 0, 0, 0, 0, 0, 0, 0, 0, 0, 0, 0, 0, 0, 0, 0, 0, 0, 0, 0, 0, 0, 0, 0, 0, 0, 0, 0, 0, 0, 2, 0, 0, 0, 9, 9, 9], 0, 0, false⟩ =
      (Except.ok (), ⟨[0, 0, 0, 0, 0, 0, 0, 0, 0, 0, 0, 0, 0, 0, 0, 0, 0, 0, 0, 0, 0, 0, 0, 0, 0, 0, 0, 0, 0, 0, 2, 0, 0, 0, 9, 9, 9], 0, 0, false⟩) := by rfl
  have h5 : readInt32 ⟨[0, 0, 0, 0, 0, 0, 0, 0, 0, 0, 0, 0, 0, 0, 0, 0, 0, 0, 0, 0, 0, 0, 0, 0, 0, 0, 0, 0, 0, 0, 2, 0, 0, 0, 9, 9, 9], 0, 0, false⟩ =
      (Except.ok 0, ⟨[0, 0, 0, 0, 0, 0, 0, 0, 0, 0, 0, 0, 0, 0, 0, 0, 0, 0, 0, 0, 0, 0, 0, 0, 0, 0, 2, 0, 0, 0, 9, 9, 9], 0, 0, false⟩) := by rfl
  have h6 : readDesignerBlock asciiCodec 6 ⟨[0, 0, 0, 0, 0, 0, 0, 0, 0, 0, 0, 0, 0, 0, 0, 0, 0, 0, 0, 0, 0, 0, 0, 0, 0, 0, 2, 0, 0, 0, 9, 9, 9], 0, 0, false⟩ =
      (Except.ok ([], 0), ⟨[0, 0, 0, 0, 0, 0, 0, 0, 0, 0, 0, 0, 0, 0, 0, 0, 0, 0, 2, 0, 0, 0, 9, 9, 9], 0, 0, false⟩) := by rfl
  have h7 : readShiftedString asciiCodec ⟨[0, 0, 0, 0, 0, 0, 0, 0, 0, 0, 0, 0, 0, 0, 0, 0, 0, 0, 2, 0, 0, 0, 9, 9, 9], 0, 0, false⟩ =
      (Except.ok [], ⟨[0, 0, 0, 0, 0, 0, 0, 0, 0, 0, 0, 0, 0, 0, 2, 0, 0, 0, 9, 9, 9], 0, 0, false⟩) := by rfl
  have h8 : readShiftedString asciiCodec ⟨[0, 0, 0, 0, 0, 0, 0, 0, 0, 0, 0, 0, 0, 0, 2, 0, 0, 0, 9, 9, 9], 0, 0, false⟩ =
      (Except.ok [], ⟨[0, 0, 0, 0, 0, 0, 0, 0, 0, 0, 2, 0, 0, 0, 9, 9, 9], 0, 0, false⟩) := by rfl
  have h9 : readInt32 ⟨[0, 0, 0, 0, 0, 0, 0, 0, 0, 0, 2, 0, 0, 0, 9, 9, 9], 0, 0, false⟩ =
      (Except.ok 0, ⟨[0, 0, 0, 0, 0, 0, 2, 0, 0, 0, 9, 9, 9], 0, 0, false⟩) := by rfl
  have h10 : readV6PreKeyFlags 6 ⟨[0, 0, 0, 0, 0, 0, 2, 0, 0, 0, 9, 9, 9], 0, 0, false⟩ =
      (Except.ok (0, 0), ⟨[0, 0, 0, 0, 2, 0, 0, 0, 9, 9, 9], 0, 0, false⟩) := by rfl
  have h11 : readShiftedString asciiCodec ⟨[0, 0, 0, 0, 2, 0, 0, 0, 9, 9, 9], 0, 0, false⟩ =
      (Except.ok [], ⟨[2, 0, 0, 0, 9, 9, 9], 0, 0, false⟩) := by rfl
  have h12 : readPostKeyBlock 6 ⟨[2, 0, 0, 0, 9, 9, 9], 0, 0, false⟩ =
      (Except.ok (2, 0, 0), ⟨[], 2, 0, false⟩) := by rfl
  have h13 : readF64raw ⟨[], 2, 0, false⟩ =
      (Except.error "EOF", ⟨[], 3, 0, false⟩) := by rfl
  have hHdr : ReadHeader asciiCodec ⟨c1Input, 0, 0, false⟩ =
      (Except.error "EOF", ⟨[], 3, 0, false⟩) := by
    simp only [ReadHeader, M.bind_def, M.wrapErr_eq_ok "read magic failed: " h1, ne_eq,
      not_true_eq_false, if_false, M.pure_def, M.wrapErr_eq_ok "read version failed: " h2,
      h3, h4, M.wrapErr_eq_ok "read unknown int failed: " h5, h6, h7, h8, h9, h10, h11,
      h12, h13]
  have hLoad : Load asciiCodec ⟨c1Input, 0, 0, false⟩ =
      (Except.error "failed to read header: EOF", ⟨[], 3, 0, false⟩) := by
    simp only [Load, M.bind_def, M.wrapErr_eq_error "failed to read header: " hHdr]
    rfl
  refine ⟨hLoad, ?_⟩
  rw [hLoad]
  decide

end PdoTools
